import Mathlib

/-!
Shallow embedding of the service-worker caching engine of `sw.js`
(kintai-pwa). The worker is modelled as pure state-passing functions:

* cache storage is a registry of named stores, in creation order
  (`caches.open`, `caches.match`, `caches.keys`, `caches.delete`);
* a store maps a request URL (the request identity — all stored requests
  are GET) to a stored response;
* the network is a function from URL to `Option Response`: `none` models
  a rejected `fetch` (network failure), `some r` a resolved response,
  which carries a status (`res.ok` means status in the 2xx range);
* the `install`, `activate` and `fetch` listeners become functions on
  this state, and the synchronous control flow of the install listener is
  additionally captured as an event trace for the ordering claim about
  `skipWaiting`.
-/

set_option autoImplicit false

namespace SW

/-- HTTP response as the worker observes it: a status code and a body
(the bytes). `res.ok` in the source is status in the 2xx range. -/
structure Response where
  status : Nat
  body : List Nat
deriving DecidableEq, Repr

/-- Embeds `res.ok` of the Fetch API: status between 200 and 299. -/
def Response.ok (r : Response) : Bool :=
  decide (200 ≤ r.status) && decide (r.status ≤ 299)

/-- Intercepted request: a method and a URL. The `url` field stands for
the request URL's path (`new URL(e.request.url).pathname` in the source;
the modelled requests carry no query or fragment). -/
structure Request where
  method : String
  url : String
deriving DecidableEq, Repr

/-- The network boundary: `fetch` by URL. `none` is a rejected fetch. -/
abbrev Network : Type := String → Option Response

/-- One named cache store: an association list from request URL to the
stored response (`Cache` objects of the Cache API). -/
abbrev Store : Type := List (String × Response)

/-- Cache storage: the named stores, in creation order
(`CacheStorage`). -/
abbrev CacheState : Type := List (String × Store)

/-- Embeds `const CACHE = 'kintai-v19'` of `sw.js`. -/
def CACHE : String := "kintai-v19"

/-- Embeds `const CACHE_STATIC = 'kintai-static-v1'` of `sw.js`. -/
def CACHE_STATIC : String := "kintai-static-v1"

/-- Embeds `const PRECACHE = [...]` of `sw.js`. -/
def PRECACHE : List String :=
  ["./index.html", "./manifest.json", "./recover.html",
   "./icon-apple.png", "./icon-192.png", "./icon-512.png"]

/-- Embeds `const STATIC_EXT = [...]` of `sw.js`. -/
def STATIC_EXT : List String := [".png", ".jpg", ".svg", ".ico", ".woff2"]

/-- Lookup in one store (`cache.match(request)`): first entry whose key
equals the URL. -/
def storeLookup : Store → String → Option Response
  | [], _ => none
  | (k, v) :: rest, url => if k = url then some v else storeLookup rest url

/-- Write into one store (`cache.put(request, response)`): overwrites the
entry for the key when present, appends otherwise. -/
def storePut : Store → String → Response → Store
  | [], url, r => [(url, r)]
  | (k, v) :: rest, url, r =>
      if k = url then (url, r) :: rest else (k, v) :: storePut rest url r

/-- Contents of the named store (`caches.open(name)` followed by reads):
the store under that name, or the empty store when it does not exist yet
(the Cache API creates stores lazily). -/
def openStore : CacheState → String → Store
  | [], _ => []
  | (n, s) :: rest, name => if n = name then s else openStore rest name

/-- Write-through of `caches.open(name)` + `cache.put(url, r)`: updates
the named store, creating it (at the end, in creation order) when it does
not exist yet. -/
def putIn : CacheState → String → String → Response → CacheState
  | [], name, url, r => [(name, [(url, r)])]
  | (n, s) :: rest, name, url, r =>
      if n = name then (n, storePut s url r) :: rest
      else (n, s) :: putIn rest name url r

/-- Embeds `caches.match(request)`: searches every store, in order, and
returns the first hit. -/
def cachesMatch : CacheState → String → Option Response
  | [], _ => none
  | (_, s) :: rest, url =>
      match storeLookup s url with
      | some r => some r
      | none => cachesMatch rest url

/-- Embeds `caches.keys()`: the names of the existing stores. -/
def cachesKeys (st : CacheState) : List String := st.map Prod.fst

/-- Prefix test on character lists, auxiliary to the suffix test. -/
def charsPrefix : List Char → List Char → Bool
  | [], _ => true
  | _ :: _, [] => false
  | a :: as, b :: bs => a == b && charsPrefix as bs

/-- Embeds `String.prototype.endsWith`: the characters of `suf` are a
suffix of the characters of `s`. -/
def strEndsWith (s suf : String) : Bool :=
  charsPrefix suf.data.reverse s.data.reverse

/-- Classifies a path against `STATIC_EXT`, as in
`STATIC_EXT.some(ext => url.pathname.endsWith(ext))`. -/
def isStaticPath (path : String) : Bool :=
  STATIC_EXT.any (fun ext => strEndsWith path ext)

/-- The request classifier of the fetch listener:
`const isStatic = STATIC_EXT.some(ext => url.pathname.endsWith(ext))`. -/
def isStaticReq (req : Request) : Bool := isStaticPath req.url

/-- Embeds the fetching half of `cache.addAll(paths)`: fetch every path;
the batch fails (`none`) when any fetch rejects or resolves with a
non-success status (the Cache API rejects `addAll` on any non-2xx
response). On success it returns the fetched entries in order. -/
def addAllFetch (net : Network) : List String → Option (List (String × Response))
  | [] => some []
  | p :: ps =>
      match net p with
      | none => none
      | some r =>
          if r.ok then
            match addAllFetch net ps with
            | none => none
            | some es => some ((p, r) :: es)
          else none

/-- Batch insertion of fetched entries into the dynamic store, in order. -/
def putAll (st : CacheState) (es : List (String × Response)) : CacheState :=
  es.foldl (fun s e => putIn s CACHE e.1 e.2) st

/-- Embeds the install listener's cache effect:
`caches.open(CACHE).then(c => c.addAll(PRECACHE))`. `cache.addAll` is a
single batch operation of the Cache API: either every entry is stored or
the operation rejects and the store is unchanged, which `none` models
(the caller's state stands). -/
def install (net : Network) (st : CacheState) : Option CacheState :=
  match addAllFetch net PRECACHE with
  | none => none
  | some es => some (putAll st es)

/-- Embeds the activate listener's cleanup:
`caches.keys().then(keys => keys.filter(k => k !== CACHE && k !== CACHE_STATIC).map(k => caches.delete(k)))`:
every store whose name is neither current tag is deleted. -/
def activate (st : CacheState) : CacheState :=
  st.filter (fun kv => kv.1 == CACHE || kv.1 == CACHE_STATIC)

/-- Outcome of the fetch listener for one intercepted request:
`passthrough` when the listener returns without calling `respondWith`
(default handling applies), `respond r` when the promise passed to
`respondWith` settles with `r` (`respond none` models resolving with
`null`). -/
inductive FetchOutcome where
  | passthrough
  | respond (r : Option Response)
deriving DecidableEq, Repr

/-- Embeds the stale-while-revalidate branch of the fetch listener:
look up the static store; issue the network fetch; when it resolves with
a success status, put the response into the static store (the clone);
the caller receives the cached entry when present, otherwise whatever
the fetch settles with (`res` even when not ok; `null` on rejection, via
`.catch(() => null)`). The returned pair is (response to caller, cache
state after the background put settles). -/
def handleStatic (net : Network) (st : CacheState) (req : Request) :
    Option Response × CacheState :=
  let cached := storeLookup (openStore st CACHE_STATIC) req.url
  let st' :=
    match net req.url with
    | some res => if res.ok then putIn st CACHE_STATIC req.url res else st
    | none => st
  let resp :=
    match cached with
    | some c => some c
    | none => net req.url
  (resp, st')

/-- Embeds the network-first branch of the fetch listener: fetch; on a
resolved response return it, and when it is ok put a clone into the
dynamic store; on rejection fall back to `caches.match(e.request)`, and
when that misses to `caches.match('./index.html')`. -/
def handleDynamic (net : Network) (st : CacheState) (req : Request) :
    Option Response × CacheState :=
  match net req.url with
  | some res => (some res, if res.ok then putIn st CACHE req.url res else st)
  | none =>
      match cachesMatch st req.url with
      | some cached => (some cached, st)
      | none => (cachesMatch st "./index.html", st)

/-- Embeds the fetch listener: non-GET requests return without
`respondWith` (passthrough, no cache touched); GET requests are
classified and dispatched to the two strategies. -/
def handleFetch (net : Network) (st : CacheState) (req : Request) :
    FetchOutcome × CacheState :=
  if req.method ≠ "GET" then (FetchOutcome.passthrough, st)
  else if isStaticReq req then
    let p := handleStatic net st req
    (FetchOutcome.respond p.1, p.2)
  else
    let p := handleDynamic net st req
    (FetchOutcome.respond p.1, p.2)

/-- Observable events of the install phase whose relative order the spec
speaks about: the invocation of `self.skipWaiting()` and the settling of
the precache task registered through `e.waitUntil`. -/
inductive InstallEvent where
  | skipWaitingInvoked
  | precacheSettled
deriving DecidableEq, Repr

/-- The two statements of the install listener body, in source order:
`e.waitUntil(caches.open(CACHE).then(c => c.addAll(PRECACHE)));` then
`self.skipWaiting();`. -/
inductive InstallStmt where
  | waitUntilPrecache
  | callSkipWaiting
deriving DecidableEq, Repr

/-- Embeds the install listener body of `sw.js` as its statement list. -/
def installListenerBody : List InstallStmt :=
  [InstallStmt.waitUntilPrecache, InstallStmt.callSkipWaiting]

/-- Events a statement emits synchronously while the listener body runs:
`waitUntil` only registers the asynchronous precache task (no event);
`self.skipWaiting()` is invoked on the spot. -/
def syncEvents : InstallStmt → List InstallEvent
  | InstallStmt.waitUntilPrecache => []
  | InstallStmt.callSkipWaiting => [InstallEvent.skipWaitingInvoked]

/-- Events a statement's registered asynchronous work emits after the
listener body has run to completion: the precache task (which awaits
`fetch`) can settle only then, by the run-to-completion semantics of the
single-threaded event loop. -/
def asyncEvents : InstallStmt → List InstallEvent
  | InstallStmt.waitUntilPrecache => [InstallEvent.precacheSettled]
  | InstallStmt.callSkipWaiting => []

/-- The event trace of one run of the install listener: the synchronous
events of the body in statement order, then the settlements of the
asynchronous tasks the body registered. -/
def installEventTrace : List InstallEvent :=
  (installListenerBody.map syncEvents).flatten
    ++ (installListenerBody.map asyncEvents).flatten

/-- Whether fetching a path succeeds in the sense relevant to the
precache warm-up: the fetch resolves and carries a success status (the
sense in which `cache.addAll` accepts the response). -/
def fetchOk (net : Network) (p : String) : Bool :=
  match net p with
  | some r => r.ok
  | none => false

/-! Concrete fixtures used to exercise the model on closed inputs. -/

/-- A success response with payload 1. -/
def respA : Response := ⟨200, [1]⟩

/-- A success response with payload 2 (a different payload than `respA`). -/
def respB : Response := ⟨200, [2]⟩

/-- A resolved non-success response (status 404). -/
def resp404 : Response := ⟨404, [9]⟩

/-- A network where every fetch rejects (offline). -/
def netDown : Network := fun _ => none

/-- A network where every fetch resolves with `respA`. -/
def netUp : Network := fun _ => some respA

/-- A network where every fetch resolves with `respB`. -/
def netUpB : Network := fun _ => some respB

/-- A network where every fetch resolves, but with status 404. -/
def net404 : Network := fun _ => some resp404

/-- A network where only the fetch of `./manifest.json` rejects. -/
def netFailManifest : Network :=
  fun u => if u = "./manifest.json" then none else some respA

/-- A cache state holding only the dynamic store, warmed with the app
shell document. -/
def stShell : CacheState := [(CACHE, [("./index.html", respA)])]

/-- A cache state holding only the static store, with a cached icon. -/
def stIcon : CacheState := [(CACHE_STATIC, [("./icon-192.png", respA)])]

/-- A dynamic GET request for an API route. -/
def reqApi : Request := ⟨"GET", "/api/data"⟩

/-- A static GET request for an icon. -/
def reqIcon : Request := ⟨"GET", "./icon-192.png"⟩

/-- A mutating request, which the worker must not intercept. -/
def reqPost : Request := ⟨"POST", "/api/data"⟩

/-! Helper lemmas about the store operations. -/

theorem storeLookup_storePut_self (s : Store) (url : String) (r : Response) :
    storeLookup (storePut s url r) url = some r := by
  induction s with
  | nil => simp [storePut, storeLookup]
  | cons kv rest ih =>
    obtain ⟨k, v⟩ := kv
    by_cases h : k = url
    · simp [storePut, h, storeLookup]
    · simp [storePut, h, storeLookup, ih]

theorem storeLookup_storePut_of_ne (s : Store) (url url' : String) (r : Response)
    (h : url' ≠ url) :
    storeLookup (storePut s url r) url' = storeLookup s url' := by
  have h' : url ≠ url' := Ne.symm h
  induction s with
  | nil => simp [storePut, storeLookup, h']
  | cons kv rest ih =>
    obtain ⟨k, v⟩ := kv
    by_cases hk : k = url
    · subst hk
      simp [storePut, storeLookup, h']
    · simp [storePut, hk, storeLookup, ih]

theorem openStore_putIn_self (st : CacheState) (name url : String) (r : Response) :
    openStore (putIn st name url r) name = storePut (openStore st name) url r := by
  induction st with
  | nil => simp [putIn, openStore, storePut]
  | cons kv rest ih =>
    obtain ⟨n, s⟩ := kv
    by_cases hn : n = name
    · simp [putIn, hn, openStore]
    · simp [putIn, hn, openStore, ih]

theorem openStore_putIn_of_ne (st : CacheState) (name name' url : String) (r : Response)
    (h : name' ≠ name) :
    openStore (putIn st name url r) name' = openStore st name' := by
  have h' : name ≠ name' := Ne.symm h
  induction st with
  | nil => simp [putIn, openStore, h']
  | cons kv rest ih =>
    obtain ⟨n, s⟩ := kv
    by_cases hn : n = name
    · subst hn
      simp [putIn, openStore, h']
    · simp [putIn, hn, openStore, ih]

theorem openStore_of_not_mem (st : CacheState) (n : String) (h : n ∉ cachesKeys st) :
    openStore st n = [] := by
  induction st with
  | nil => rfl
  | cons kv rest ih =>
    obtain ⟨n', s⟩ := kv
    simp only [cachesKeys, List.map_cons, List.mem_cons, not_or] at h
    have hne : n' ≠ n := fun e => h.1 e.symm
    simp only [openStore, if_neg hne]
    exact ih (by simpa [cachesKeys] using h.2)

theorem openStore_of_mem_nodup (st : CacheState) (n : String) (s : Store)
    (hnd : (cachesKeys st).Nodup) (hmem : (n, s) ∈ st) :
    openStore st n = s := by
  induction st with
  | nil => cases hmem
  | cons kv rest ih =>
    obtain ⟨n', s'⟩ := kv
    have hnd' : n' ∉ cachesKeys rest ∧ (cachesKeys rest).Nodup := by
      simpa [cachesKeys, List.nodup_cons] using hnd
    rcases List.mem_cons.mp hmem with h | h
    · injection h with h1 h2
      subst h1
      subst h2
      simp [openStore]
    · have hn : n ∈ cachesKeys rest := by
        simpa [cachesKeys] using List.mem_map_of_mem Prod.fst h
      have hne : n' ≠ n := fun e => hnd'.1 (e ▸ hn)
      simp only [openStore, if_neg hne]
      exact ih hnd'.2 h

theorem cachesMatch_none (st : CacheState) (url : String)
    (h : ∀ kv ∈ st, storeLookup kv.2 url = none) :
    cachesMatch st url = none := by
  induction st with
  | nil => rfl
  | cons kv rest ih =>
    obtain ⟨n, s⟩ := kv
    have hhead := h (n, s) (by simp)
    simp [cachesMatch, hhead]
    exact ih fun kv hkv => h kv (by simp [hkv])

theorem cachesMatch_eq_dyn (st : CacheState) (url : String)
    (honly : ∀ kv ∈ st, kv.1 = CACHE ∨ kv.1 = CACHE_STATIC)
    (hnd : (cachesKeys st).Nodup)
    (hstat : storeLookup (openStore st CACHE_STATIC) url = none) :
    cachesMatch st url = storeLookup (openStore st CACHE) url := by
  induction st with
  | nil => rfl
  | cons kv rest ih =>
    obtain ⟨n, s⟩ := kv
    have hnd' : n ∉ cachesKeys rest ∧ (cachesKeys rest).Nodup := by
      simpa [cachesKeys, List.nodup_cons] using hnd
    rcases honly (n, s) (by simp) with hC | hS
    · subst hC
      have hCS : CACHE ≠ CACHE_STATIC := by decide
      have hrest_static : storeLookup (openStore rest CACHE_STATIC) url = none := by
        simpa [openStore, if_neg hCS] using hstat
      have hopen : openStore ((CACHE, s) :: rest) CACHE = s := by simp [openStore]
      rw [hopen]
      cases hcase : storeLookup s url with
      | some r => simp [cachesMatch, hcase]
      | none =>
        simp only [cachesMatch, hcase]
        apply cachesMatch_none
        intro kv hkv
        rcases honly kv (by simp [hkv]) with h1 | h1
        · exact absurd (h1 ▸ List.mem_map_of_mem Prod.fst hkv) hnd'.1
        · have : openStore rest CACHE_STATIC = kv.2 :=
            openStore_of_mem_nodup rest CACHE_STATIC kv.2 hnd'.2 (by
              have : kv = (kv.1, kv.2) := rfl
              rw [this] at hkv
              rwa [h1] at hkv)
          rwa [this] at hrest_static
    · subst hS
      have hSC : CACHE_STATIC ≠ CACHE := by decide
      have hs_none : storeLookup s url = none := by
        simpa [openStore, if_pos rfl] using hstat
      have hrest_static : storeLookup (openStore rest CACHE_STATIC) url = none := by
        rw [openStore_of_not_mem rest CACHE_STATIC hnd'.1]
        rfl
      simp only [cachesMatch, hs_none, openStore, if_neg hSC]
      exact ih (fun kv hkv => honly kv (by simp [hkv])) hnd'.2 hrest_static

theorem lookup_putIn_cases (st : CacheState) (name name' url url' : String)
    (r r' : Response)
    (h : storeLookup (openStore (putIn st name url r) name') url' = some r') :
    storeLookup (openStore st name') url' = some r' ∨ r' = r := by
  by_cases hn : name' = name
  · subst hn
    rw [openStore_putIn_self] at h
    by_cases hu : url' = url
    · subst hu
      rw [storeLookup_storePut_self] at h
      exact Or.inr (Option.some.inj h).symm
    · rw [storeLookup_storePut_of_ne _ _ _ _ hu] at h
      exact Or.inl h
  · rw [openStore_putIn_of_ne _ _ _ _ _ hn] at h
    exact Or.inl h

theorem addAllFetch_eq_none (net : Network) (l : List String)
    (h : ∃ p ∈ l, fetchOk net p = false) :
    addAllFetch net l = none := by
  induction l with
  | nil => simp at h
  | cons p ps ih =>
    obtain ⟨q, hq, hfail⟩ := h
    rcases List.mem_cons.mp hq with rfl | hq'
    · unfold fetchOk at hfail
      cases hnet : net q with
      | none => simp [addAllFetch, hnet]
      | some r =>
        rw [hnet] at hfail
        have hfail' : r.ok = false := hfail
        simp [addAllFetch, hnet, hfail']
    · have hrest := ih ⟨q, hq', hfail⟩
      cases hnet : net p with
      | none => simp [addAllFetch, hnet]
      | some r => simp [addAllFetch, hnet, hrest]

theorem addAllFetch_eq_some (net : Network) (l : List String)
    (h : ∀ p ∈ l, fetchOk net p = true) :
    ∃ es, addAllFetch net l = some es ∧ es.map Prod.fst = l := by
  induction l with
  | nil => exact ⟨[], rfl, rfl⟩
  | cons p ps ih =>
    have hp := h p (by simp)
    unfold fetchOk at hp
    cases hnet : net p with
    | none => rw [hnet] at hp; cases hp
    | some r =>
      rw [hnet] at hp
      have hp' : r.ok = true := hp
      obtain ⟨es, hes, hkeys⟩ := ih fun q hq => h q (by simp [hq])
      exact ⟨(p, r) :: es, by simp [addAllFetch, hnet, hp', hes], by simp [hkeys]⟩

theorem putAll_lookup_of_not_mem (es : List (String × Response)) (st : CacheState)
    (p : String) (h : p ∉ es.map Prod.fst) :
    storeLookup (openStore (putAll st es) CACHE) p
      = storeLookup (openStore st CACHE) p := by
  induction es generalizing st with
  | nil => rfl
  | cons e rest ih =>
    obtain ⟨q, r⟩ := e
    simp only [List.map_cons, List.mem_cons, not_or] at h
    have step : putAll st ((q, r) :: rest) = putAll (putIn st CACHE q r) rest := rfl
    rw [step, ih (putIn st CACHE q r) h.2, openStore_putIn_self,
      storeLookup_storePut_of_ne _ _ _ _ h.1]

theorem putAll_lookup_of_mem (es : List (String × Response)) (st : CacheState)
    (p : String) (hnd : (es.map Prod.fst).Nodup) (hmem : p ∈ es.map Prod.fst) :
    ∃ r, storeLookup (openStore (putAll st es) CACHE) p = some r := by
  induction es generalizing st with
  | nil => simp at hmem
  | cons e rest ih =>
    obtain ⟨q, r⟩ := e
    have hnd' : q ∉ rest.map Prod.fst ∧ (rest.map Prod.fst).Nodup := by
      simpa [List.nodup_cons] using hnd
    have step : putAll st ((q, r) :: rest) = putAll (putIn st CACHE q r) rest := rfl
    by_cases hpq : p = q
    · subst hpq
      refine ⟨r, ?_⟩
      rw [step, putAll_lookup_of_not_mem rest (putIn st CACHE p r) p hnd'.1,
        openStore_putIn_self, storeLookup_storePut_self]
    · have hmem' : p ∈ rest.map Prod.fst := by
        have hm : p = q ∨ p ∈ rest.map Prod.fst := by simpa using hmem
        exact hm.resolve_left hpq
      rw [step]
      exact ih (putIn st CACHE q r) hnd'.2 hmem'

theorem openStore_activate (st : CacheState) (n : String)
    (hkeep : (n == CACHE || n == CACHE_STATIC) = true) :
    openStore (activate st) n = openStore st n := by
  induction st with
  | nil => rfl
  | cons kv rest ih =>
    obtain ⟨m, s⟩ := kv
    have hstep : activate ((m, s) :: rest)
        = if (m == CACHE || m == CACHE_STATIC) = true
          then (m, s) :: activate rest else activate rest := by
      simp only [activate, List.filter_cons]
    rw [hstep]
    by_cases hm : m = n
    · subst hm
      rw [if_pos hkeep]
      simp [openStore]
    · by_cases hf : (m == CACHE || m == CACHE_STATIC) = true
      · rw [if_pos hf]
        simp only [openStore, if_neg hm]
        exact ih
      · rw [if_neg hf, ih]
        simp only [openStore, if_neg hm]

/-! Theorems settling the claims. -/

/-- C7: for every non-GET request, the fetch listener returns without
providing a response (default handling applies) and the cache state is
left exactly as it was: neither the dynamic nor the static store is
read or written as a result of interception. -/
theorem claim_C7_non_get_passthrough (net : Network) (st : CacheState) (req : Request)
    (hm : req.method ≠ "GET") :
    handleFetch net st req = (FetchOutcome.passthrough, st) := by
  simp [handleFetch, hm]

/-- Witness for C7 on a concrete POST request. -/
theorem claim_C7_witness :
    handleFetch netDown [] reqPost = (FetchOutcome.passthrough, []) :=
  claim_C7_non_get_passthrough netDown [] reqPost (by decide)

/-- C5: for every GET request classified as static with an entry in the
static store, the response handed to the caller is exactly that stored
entry (byte-identical), and it does not depend on the network at all —
the same response is produced under every network behavior, which is the
state-passing rendering of not waiting for the concurrent revalidation
fetch. -/
theorem claim_C5_static_cached_immediate (net : Network) (st : CacheState) (req : Request)
    (c : Response) (hm : req.method = "GET") (hs : isStaticReq req = true)
    (hc : storeLookup (openStore st CACHE_STATIC) req.url = some c) :
    (handleFetch net st req).1 = FetchOutcome.respond (some c)
    ∧ ∀ net2 : Network, (handleFetch net2 st req).1 = FetchOutcome.respond (some c) := by
  have key : ∀ n : Network, (handleFetch n st req).1 = FetchOutcome.respond (some c) := by
    intro n
    simp [handleFetch, hm, hs, handleStatic, hc]
  exact ⟨key net, key⟩

/-- Witness for C5: a cached icon is served as-is, under a network that
would deliver different bytes. -/
theorem claim_C5_witness :
    (handleFetch netUpB stIcon reqIcon).1 = FetchOutcome.respond (some respA) :=
  (claim_C5_static_cached_immediate netUpB stIcon reqIcon respA rfl (by decide) rfl).1

/-- C6: for every GET request classified as static whose concurrent
network fetch resolves with a success status, the background task stores
that response into the static store, overwriting any prior entry for the
request, so a later lookup in the static store returns the new payload —
independently of what was returned to the caller (the state update holds
for every prior store content). -/
theorem claim_C6_static_revalidate (net : Network) (st : CacheState) (req : Request)
    (r : Response) (hm : req.method = "GET") (hs : isStaticReq req = true)
    (hr : net req.url = some r) (hok : r.ok = true) :
    (handleFetch net st req).2 = putIn st CACHE_STATIC req.url r
    ∧ storeLookup (openStore (handleFetch net st req).2 CACHE_STATIC) req.url = some r := by
  have h2 : (handleFetch net st req).2 = putIn st CACHE_STATIC req.url r := by
    simp [handleFetch, hm, hs, handleStatic, hr, hok]
  refine ⟨h2, ?_⟩
  rw [h2, openStore_putIn_self, storeLookup_storePut_self]

/-- Witness for C6: the stale icon entry is overwritten by the fresh
network payload in the static store (Scenario C). -/
theorem claim_C6_witness :
    (handleFetch netUpB stIcon reqIcon).2 = putIn stIcon CACHE_STATIC "./icon-192.png" respB
    ∧ storeLookup (openStore (handleFetch netUpB stIcon reqIcon).2 CACHE_STATIC)
        "./icon-192.png" = some respB :=
  claim_C6_static_revalidate netUpB stIcon reqIcon respB rfl (by decide) rfl (by decide)

/-- C9: for every GET request classified as static with no entry in the
static store and a rejecting network fetch, the strategy yields no
usable response: the promise handed to `respondWith` resolves with
`null` (no fallback document), and the cache state is unchanged. -/
theorem claim_C9_static_both_fail (net : Network) (st : CacheState) (req : Request)
    (hm : req.method = "GET") (hs : isStaticReq req = true)
    (hc : storeLookup (openStore st CACHE_STATIC) req.url = none)
    (hn : net req.url = none) :
    handleFetch net st req = (FetchOutcome.respond none, st) := by
  simp [handleFetch, hm, hs, handleStatic, hc, hn]

/-- Witness for C9: an uncached icon, offline, yields no response. -/
theorem claim_C9_witness :
    handleFetch netDown stShell reqIcon = (FetchOutcome.respond none, stShell) :=
  claim_C9_static_both_fail netDown stShell reqIcon rfl (by decide) (by decide) rfl

/-- C4: for every GET request not matching the Static Extension Set
whose network fetch resolves with a success status, the live response is
returned to the caller and stored into the dynamic store keyed by the
request (overwriting any prior entry), so the dynamic store afterward
holds an entry for that request equal to the returned response. -/
theorem claim_C4_dynamic_network_first (net : Network) (st : CacheState) (req : Request)
    (r : Response) (hm : req.method = "GET") (hs : isStaticReq req = false)
    (hr : net req.url = some r) (hok : r.ok = true) :
    handleFetch net st req = (FetchOutcome.respond (some r), putIn st CACHE req.url r)
    ∧ storeLookup (openStore (putIn st CACHE req.url r) CACHE) req.url = some r := by
  constructor
  · simp [handleFetch, hm, hs, handleDynamic, hr, hok]
  · rw [openStore_putIn_self, storeLookup_storePut_self]

/-- Witness for C4 on a concrete API request with a reachable network. -/
theorem claim_C4_witness :
    handleFetch netUp [] reqApi
      = (FetchOutcome.respond (some respA), putIn [] CACHE "/api/data" respA)
    ∧ storeLookup (openStore (putIn [] CACHE "/api/data" respA) CACHE) "/api/data"
        = some respA :=
  claim_C4_dynamic_network_first netUp [] reqApi respA rfl (by decide) rfl (by decide)

/-- C1: install is all-or-nothing. Starting from a dynamic store with no
entries (the state `caches.open` yields for a fresh generation), if
fetching any manifest path fails — the fetch rejects or resolves without
a success status, either of which rejects `cache.addAll` — the whole
install operation fails and afterwards no manifest entry is present in
the dynamic store; if every fetch succeeds, install succeeds and every
manifest path is present in the dynamic store. -/
theorem claim_C1_install_all_or_nothing (net : Network) (st : CacheState)
    (hempty : openStore st CACHE = []) :
    ((∃ p ∈ PRECACHE, fetchOk net p = false) →
      install net st = none
      ∧ ∀ p ∈ PRECACHE, storeLookup (openStore st CACHE) p = none)
    ∧ ((∀ p ∈ PRECACHE, fetchOk net p = true) →
      ∃ st', install net st = some st'
        ∧ ∀ p ∈ PRECACHE, ∃ r, storeLookup (openStore st' CACHE) p = some r) := by
  constructor
  · intro h
    refine ⟨by simp [install, addAllFetch_eq_none net PRECACHE h], ?_⟩
    intro p _
    rw [hempty]
    rfl
  · intro h
    obtain ⟨es, hes, hkeys⟩ := addAllFetch_eq_some net PRECACHE h
    refine ⟨putAll st es, by simp [install, hes], ?_⟩
    intro p hp
    apply putAll_lookup_of_mem
    · rw [hkeys]
      decide
    · rw [hkeys]
      exact hp

/-- Witness for C1 (Scenario B shape): with the `./manifest.json` fetch
rejecting, install fails on the empty state. -/
theorem claim_C1_witness :
    install netFailManifest [] = none :=
  ((claim_C1_install_all_or_nothing netFailManifest [] rfl).1
    ⟨"./manifest.json", by decide, by decide⟩).1

/-- C2: activation deletes exactly the stores whose name is neither the
current dynamic tag `kintai-v19` nor the current static tag
`kintai-static-v1`: afterwards a name is enumerable iff it was
enumerable before and is one of the two current tags, and the contents
of the two current stores are untouched. -/
theorem claim_C2_activate_generations (st : CacheState) :
    (∀ n, n ∈ cachesKeys (activate st)
      ↔ n ∈ cachesKeys st ∧ (n = CACHE ∨ n = CACHE_STATIC))
    ∧ openStore (activate st) CACHE = openStore st CACHE
    ∧ openStore (activate st) CACHE_STATIC = openStore st CACHE_STATIC := by
  refine ⟨?_, ?_, ?_⟩
  · intro n
    simp only [cachesKeys, activate, List.mem_map, List.mem_filter]
    constructor
    · rintro ⟨kv, ⟨hmem, hf⟩, hn⟩
      subst hn
      refine ⟨⟨kv, hmem, rfl⟩, ?_⟩
      simpa using hf
    · rintro ⟨⟨kv, hmem, hn⟩, hor⟩
      subst hn
      exact ⟨kv, ⟨hmem, by simpa using hor⟩, rfl⟩
  · exact openStore_activate st CACHE (by decide)
  · exact openStore_activate st CACHE_STATIC (by decide)

/-- C3: for every GET request not matching the Static Extension Set
whose network fetch rejects, in an intercepting state (only the two
current stores exist — activation has completed — and the static store
holds only static-classified paths), the handler falls back to the
cached entry for the request in the dynamic store, and when none exists
to the application's root document `./index.html`, leaving the cache
state unchanged. -/
theorem claim_C3_dynamic_offline_fallback (net : Network) (st : CacheState) (req : Request)
    (hm : req.method = "GET") (hs : isStaticReq req = false)
    (hnet : net req.url = none)
    (honly : ∀ kv ∈ st, kv.1 = CACHE ∨ kv.1 = CACHE_STATIC)
    (hnd : (cachesKeys st).Nodup)
    (hstat : ∀ url r, storeLookup (openStore st CACHE_STATIC) url = some r →
      isStaticPath url = true) :
    handleFetch net st req =
      (FetchOutcome.respond
        (match storeLookup (openStore st CACHE) req.url with
         | some c => some c
         | none => storeLookup (openStore st CACHE) "./index.html"), st) := by
  have hreq_none : storeLookup (openStore st CACHE_STATIC) req.url = none := by
    cases hcase : storeLookup (openStore st CACHE_STATIC) req.url with
    | none => rfl
    | some r =>
      have hst := hstat req.url r hcase
      rw [show isStaticPath req.url = isStaticReq req from rfl, hs] at hst
      cases hst
  have hroot_none : storeLookup (openStore st CACHE_STATIC) "./index.html" = none := by
    cases hcase : storeLookup (openStore st CACHE_STATIC) "./index.html" with
    | none => rfl
    | some r =>
      have hst := hstat "./index.html" r hcase
      rw [show isStaticPath "./index.html" = false from by decide] at hst
      cases hst
  have h1 := cachesMatch_eq_dyn st req.url honly hnd hreq_none
  have h2 := cachesMatch_eq_dyn st "./index.html" honly hnd hroot_none
  have hdyn : handleDynamic net st req =
      (match storeLookup (openStore st CACHE) req.url with
       | some c => some c
       | none => storeLookup (openStore st CACHE) "./index.html", st) := by
    unfold handleDynamic
    rw [hnet, h1, h2]
    cases storeLookup (openStore st CACHE) req.url <;> rfl
  simp [handleFetch, hm, hs, hdyn]

/-- Witness for C3 (Scenario D): an uncached API route, offline, yields
the cached root document. -/
theorem claim_C3_witness :
    handleFetch netDown stShell reqApi = (FetchOutcome.respond (some respA), stShell) := by
  have h := claim_C3_dynamic_offline_fallback netDown stShell reqApi rfl (by decide) rfl
    (by decide) (by decide) (fun url r hlook => nomatch hlook)
  exact h.trans (by decide)

/-- C8 as written claims the skip-waiting effect is invoked only after
the precache store operation completes. In the trace of the install
listener this would mean the precache settlement precedes the
`skipWaiting` invocation; the counterexample shows it does not: the
listener body invokes `self.skipWaiting()` synchronously, before the
`waitUntil`-registered precache task can settle. -/
theorem claim_C8_counterexample :
    ¬ (installEventTrace.indexOf InstallEvent.precacheSettled
        < installEventTrace.indexOf InstallEvent.skipWaitingInvoked) := by
  decide

/-- C8 (amended): during install the worker invokes `skipWaiting`
synchronously in the listener body, before — not after — the manifest
fetch-and-store task settles; the install trace is exactly the
skip-waiting invocation followed by the precache settlement. -/
theorem claim_C8_skip_waiting_order :
    installEventTrace
      = [InstallEvent.skipWaitingInvoked, InstallEvent.precacheSettled]
    ∧ installEventTrace.indexOf InstallEvent.skipWaitingInvoked
        < installEventTrace.indexOf InstallEvent.precacheSettled := by
  decide

/-- C10: every entry the two fetch-interception strategies write into
either cache store comes from a network response with a success status —
any entry present after interception was already present before or is a
success response — and a resolved non-success response on the dynamic
path is returned to the caller but never stored (the state is left
unchanged). -/
theorem claim_C10_store_only_ok (net : Network) (st : CacheState) (req : Request) :
    (∀ name url r,
      storeLookup (openStore (handleFetch net st req).2 name) url = some r →
      storeLookup (openStore st name) url = some r ∨ r.ok = true)
    ∧ (∀ r, req.method = "GET" → isStaticReq req = false → net req.url = some r →
      r.ok = false → handleFetch net st req = (FetchOutcome.respond (some r), st)) := by
  have hstate : (handleFetch net st req).2 = st
      ∨ ∃ name' url' r', r'.ok = true
          ∧ (handleFetch net st req).2 = putIn st name' url' r' := by
    by_cases hm : req.method = "GET"
    · by_cases hs : isStaticReq req = true
      · cases hnet : net req.url with
        | none => exact Or.inl (by simp [handleFetch, hm, hs, handleStatic, hnet])
        | some res =>
          cases hok : res.ok with
          | false => exact Or.inl (by simp [handleFetch, hm, hs, handleStatic, hnet, hok])
          | true =>
            exact Or.inr ⟨CACHE_STATIC, req.url, res, hok,
              by simp [handleFetch, hm, hs, handleStatic, hnet, hok]⟩
      · have hs' : isStaticReq req = false := by simpa using hs
        cases hnet : net req.url with
        | none =>
          refine Or.inl ?_
          simp only [handleFetch, hm, hs', handleDynamic, hnet]
          cases cachesMatch st req.url <;> simp
        | some res =>
          cases hok : res.ok with
          | false => exact Or.inl (by simp [handleFetch, hm, hs', handleDynamic, hnet, hok])
          | true =>
            exact Or.inr ⟨CACHE, req.url, res, hok,
              by simp [handleFetch, hm, hs', handleDynamic, hnet, hok]⟩
    · exact Or.inl (by simp [handleFetch, hm])
  constructor
  · intro name url r h
    rcases hstate with heq | ⟨name', url', r', hok, heq⟩
    · rw [heq] at h
      exact Or.inl h
    · rw [heq] at h
      rcases lookup_putIn_cases st name' name url' url r' r h with h1 | h1
      · exact Or.inl h1
      · exact Or.inr (h1 ▸ hok)
  · intro r hm hs hr hok
    simp [handleFetch, hm, hs, handleDynamic, hr, hok]

/-- Witness for C10: a 404 on the dynamic path is returned to the
caller and nothing is written to any store. -/
theorem claim_C10_witness :
    handleFetch net404 stShell reqApi = (FetchOutcome.respond (some resp404), stShell) :=
  (claim_C10_store_only_ok net404 stShell reqApi).2 resp404 rfl (by decide) rfl (by decide)

end SW
